import Mathlib

/-!
Verification of the Codeforces scraping script (`a3.py`).

The script drives a browser to a problem page, waits for the
`problem-statement` element, parses the page source with BeautifulSoup,
extracts title / limits / statement / samples / tags, and writes a `.txt`
and a `.json` artifact.  We embed the HTML tree, the BeautifulSoup
queries used by the script, the pure extraction functions, and the
effectful `scrape_problem` procedure over an explicit environment that
models the browser session and the fallible file writes.
-/

namespace Scraper

/-- Python `str.strip()`: remove leading and trailing whitespace. -/
def pstrip (s : String) : String :=
  ⟨((s.data.dropWhile Char.isWhitespace).reverse.dropWhile Char.isWhitespace).reverse⟩

/-- Split a character list on spaces (keeping empty pieces), accumulator of
the current piece held reversed. -/
def splitSp (acc : List Char) : List Char → List String
  | [] => [⟨acc.reverse⟩]
  | c :: cs => if c = ' ' then ⟨acc.reverse⟩ :: splitSp [] cs else splitSp (c :: acc) cs

/-- Split a class attribute string into its whitespace-separated tokens. -/
def classSplit (s : String) : List String := splitSp [] s.data

/-- Python `'\n'.join(l)`. -/
def joinNl : List String → String
  | [] => ""
  | [s] => s
  | s :: rest => s ++ "\n" ++ joinNl rest

/-- An HTML node: either a text node or an element with a tag name, a raw
`class` attribute string and a list of children. -/
inductive Html where
  | text (s : String)
  | elem (tag : String) (classAttr : String) (children : List Html)
deriving Repr

/-- The class tokens of an element (the `class` attribute split on spaces). -/
def Html.classTokens : Html → List String
  | .text _ => []
  | .elem _ cls _ => classSplit cls

/-- The raw class attribute of a node (empty for text nodes). -/
def Html.classAttrOf : Html → String
  | .text _ => ""
  | .elem _ cls _ => cls

/-- The tag of a node (empty for text nodes). -/
def Html.tagOf : Html → String
  | .text _ => ""
  | .elem t _ _ => t

/-- Whether a node is an element (BeautifulSoup `Tag`). -/
def Html.isElem : Html → Bool
  | .text _ => false
  | .elem _ _ _ => true

mutual
/-- All element descendants of a node, in document (pre-)order, excluding
the node itself — the search space of BeautifulSoup `find_all` on a tag. -/
def Html.descendants : Html → List Html
  | .text _ => []
  | .elem _ _ cs => Html.descList cs

/-- Element descendants of a forest, in document order, including the
roots of the forest themselves when they are elements. -/
def Html.descList : List Html → List Html
  | [] => []
  | c :: cs => ((if c.isElem then [c] else []) ++ Html.descendants c) ++ Html.descList cs
end

mutual
/-- `tag.text` in BeautifulSoup: concatenation of all text-node strings in
document order. -/
def Html.textOf : Html → String
  | .text s => s
  | .elem _ _ cs => Html.textList cs

/-- Concatenated text of a forest. -/
def Html.textList : List Html → String
  | [] => ""
  | c :: cs => Html.textOf c ++ Html.textList cs
end

/-- `find_all(tag, class_=c)` with a single-token class: descendant elements
with the given tag whose class list contains the token, in document order. -/
def findAllTagClass (h : Html) (tag cls : String) : List Html :=
  h.descendants.filter (fun e => e.tagOf == tag && (e.classTokens).contains cls)

/-- `find(tag, class_=c)`: the first such descendant, if any. -/
def findTagClass (h : Html) (tag cls : String) : Option Html :=
  (findAllTagClass h tag cls).head?

/-- `find_all(tag, class_="a b c")` with a multi-word class string:
BeautifulSoup matches the exact string value of the `class` attribute. -/
def findAllTagClassExact (h : Html) (tag cls : String) : List Html :=
  h.descendants.filter (fun e => e.tagOf == tag && e.classAttrOf == cls)

/-- `find_all(['p', 'div'])`-style query: descendant elements whose tag is
in the given list, in document order. -/
def findAllTags (h : Html) (tags : List String) : List Html :=
  h.descendants.filter (fun e => tags.contains e.tagOf)

/-- `find(tag)` with no class: first descendant element with the tag. -/
def findTag (h : Html) (tag : String) : Option Html :=
  (h.descendants.filter (fun e => e.tagOf == tag)).head?

/-- `CodeforcesScraper.extract_problem_statement`: first append every
`span.math` descendant's trimmed text wrapped in `$$ … $$`, then append the
trimmed text of every `p`/`div` descendant that has no `span.math`
descendant, and join the non-empty fragments with newlines
(`'\n'.join(filter(None, problem_text))`). -/
def extract_problem_statement (problem_statement_div : Html) : String :=
  let latexFrags :=
    (findAllTagClass problem_statement_div "span" "math").map
      (fun latex => "$$ " ++ pstrip latex.textOf ++ " $$")
  let proseFrags :=
    (findAllTags problem_statement_div ["p", "div"]).filterMap
      (fun paragraph =>
        if (findTagClass paragraph "span" "math").isSome then none
        else some (pstrip paragraph.textOf))
  joinNl ((latexFrags ++ proseFrags).filter (fun s => s != ""))

/-! ## The extracted record and the pure field extractors -/

/-- One sample test: an `{input, output}` pair. -/
structure Sample where
  input : String
  output : String
deriving Repr, DecidableEq

/-- The flat record assembled by `scrape_problem` (the Python dict `data`):
`title`, `time_limit` and `memory_limit` are only present when found;
`statement`, `samples` and `tags` are always assigned. -/
structure ProblemData where
  title : Option String
  time_limit : Option String
  memory_limit : Option String
  statement : String
  samples : List Sample
  tags : List String
deriving Repr, DecidableEq

/-- `problem_statement.find('div', class_='title')`, trimmed text. -/
def extractTitle (problem_statement : Html) : Option String :=
  (findTagClass problem_statement "div" "title").map (fun d => pstrip d.textOf)

/-- `limits = find_all('div', class_='time-limit'); if limits: limits[0].text.strip()`. -/
def extractTimeLimit (problem_statement : Html) : Option String :=
  (findAllTagClass problem_statement "div" "time-limit").head?.map (fun d => pstrip d.textOf)

/-- `problem_statement.find('div', class_='memory-limit')`, trimmed text. -/
def extractMemoryLimit (problem_statement : Html) : Option String :=
  (findTagClass problem_statement "div" "memory-limit").map (fun d => pstrip d.textOf)

/-- The body of the sample loop: find the `div.input` and `div.output`
sub-elements, then their inner `pre` elements; produce a pair only when all
four are present. -/
def extractSample (test : Html) : Option Sample :=
  match findTagClass test "div" "input", findTagClass test "div" "output" with
  | some input_div, some output_div =>
    (match findTag input_div "pre", findTag output_div "pre" with
     | some input_pre, some output_pre =>
         some ⟨pstrip input_pre.textOf, pstrip output_pre.textOf⟩
     | _, _ => none)
  | _, _ => none

/-- The sample loop over `find_all('div', class_='sample-test')`, appending
only the pairs whose inner structure is complete, in document order. -/
def collectSamples (problem_statement : Html) : List Sample :=
  (findAllTagClass problem_statement "div" "sample-test").filterMap extractSample

/-- The tag loop: over every `div` of the **full document** whose class
attribute is exactly `roundbox borderTopRound borderBottomRound`, collect the
trimmed text of its inner `span.tag-box` when present. -/
def collectTags (soup : Html) : List String :=
  (findAllTagClassExact soup "div" "roundbox borderTopRound borderBottomRound").filterMap
    (fun tag_div => (findTagClass tag_div "span" "tag-box").map (fun span => pstrip span.textOf))

/-! ## Constants and file naming -/

def base_url : String := "https://codeforces.com"

def data_dir : String := "scraped_data"

/-- `f"{self.base_url}/problemset/problem/{problem_id}"`. -/
def problemUrl (problem_id : String) : String :=
  base_url ++ "/problemset/problem/" ++ problem_id

/-- The `.txt` artifact path; the stem inlines
`problem_id.replace('/', '_')` exactly as the source does at its own line. -/
def txtFilePath (problem_id : String) : String :=
  data_dir ++ "/problem_" ++ ⟨problem_id.data.map (fun c => if c = '/' then '_' else c)⟩ ++ ".txt"

/-- The `.json` artifact path; the stem again inlines its own
`problem_id.replace('/', '_')` (the source repeats the expression). -/
def jsonFilePath (problem_id : String) : String :=
  data_dir ++ "/problem_" ++ ⟨problem_id.data.map (fun c => if c = '/' then '_' else c)⟩ ++ ".json"

/-- The sanitization rule as the spec words it: every `/` replaced by `_`. -/
def sanitizeId (problem_id : String) : String :=
  ⟨problem_id.data.map (fun c => if c = '/' then '_' else c)⟩

/-! ## JSON values and the `json.dump(..., indent=2, ensure_ascii=False)`
serialization.  The record only ever produces strings, arrays and objects,
so numbers/booleans/null are not modelled. -/

/-- A JSON value (the fragment produced by the scraper's record). -/
inductive J where
  | str (s : String)
  | arr (xs : List J)
  | obj (fields : List (String × J))

/-- Lower-case hex digit of a value below 16. -/
def hexDigitChar (n : Nat) : Char :=
  if n < 10 then Char.ofNat (48 + n) else Char.ofNat (87 + n)

/-- Python's JSON string escaping with `ensure_ascii=False`: escape the
backslash, the double quote, the named control characters, and any other
control character as `\u00XX`; everything else is emitted raw. -/
def escapeChar (c : Char) : List Char :=
  if c = '"' then ['\\', '"']
  else if c = '\\' then ['\\', '\\']
  else if c = '\n' then ['\\', 'n']
  else if c = '\r' then ['\\', 'r']
  else if c = '\t' then ['\\', 't']
  else if c.toNat = 8 then ['\\', 'b']
  else if c.toNat = 12 then ['\\', 'f']
  else if c.toNat < 32 then
    ['\\', 'u', '0', '0', hexDigitChar (c.toNat / 16), hexDigitChar (c.toNat % 16)]
  else [c]

/-- Escape a whole character list. -/
def escList : List Char → List Char
  | [] => []
  | c :: cs => escapeChar c ++ escList cs

/-- A JSON string literal. -/
def renderJStr (s : String) : List Char :=
  '"' :: (escList s.data ++ ['"'])

/-- A newline followed by `n` spaces (the separator `json.dump` emits
between items at indentation level `n`). -/
def nlIndent (n : Nat) : List Char :=
  '\n' :: List.replicate n ' '

mutual
/-- Render a JSON value at indentation level `ind`, exactly as
`json.dump(v, f, indent=2, ensure_ascii=False)` lays it out. -/
def renderJ (ind : Nat) : J → List Char
  | .str s => renderJStr s
  | .arr xs => renderArr ind xs
  | .obj fs => renderObj ind fs

/-- Render an array: `[]` when empty, otherwise the items at `ind + 2`. -/
def renderArr (ind : Nat) : List J → List Char
  | [] => ['[', ']']
  | x :: xs =>
      '[' :: (nlIndent (ind + 2) ++ renderJ (ind + 2) x ++ renderArrTail (ind + 2) xs
              ++ nlIndent ind ++ [']'])

/-- The remaining array items, each preceded by `",\n" ++ indent`. -/
def renderArrTail (ind : Nat) : List J → List Char
  | [] => []
  | x :: xs => ',' :: (nlIndent ind ++ renderJ ind x ++ renderArrTail ind xs)

/-- Render an object: `{}` when empty, otherwise the fields at `ind + 2`. -/
def renderObj (ind : Nat) : List (String × J) → List Char
  | [] => ['\x7b', '\x7d']
  | f :: fs =>
      '\x7b' :: (nlIndent (ind + 2) ++ renderField (ind + 2) f ++ renderObjTail (ind + 2) fs
                 ++ nlIndent ind ++ ['\x7d'])

/-- The remaining object fields, each preceded by `",\n" ++ indent`. -/
def renderObjTail (ind : Nat) : List (String × J) → List Char
  | [] => []
  | f :: fs => ',' :: (nlIndent ind ++ renderField ind f ++ renderObjTail ind fs)

/-- One `"key": value` field. -/
def renderField (ind : Nat) : String × J → List Char
  | (k, v) => renderJStr k ++ (':' :: ' ' :: renderJ ind v)
end

/-- The serialized document written to the `.json` artifact. -/
def renderJson (v : J) : String := ⟨renderJ 0 v⟩

/-- One sample as a JSON object, key order `input` then `output`. -/
def sampleToJ (s : Sample) : J :=
  .obj [("input", .str s.input), ("output", .str s.output)]

/-- The record as the JSON object `json.dump` receives: dict insertion
order `title?, time_limit?, memory_limit?, statement, samples, tags`,
with the optional keys simply absent when not found. -/
def recordToJ (d : ProblemData) : J :=
  .obj ((match d.title with | some t => [("title", J.str t)] | none => [])
    ++ (match d.time_limit with | some t => [("time_limit", J.str t)] | none => [])
    ++ (match d.memory_limit with | some t => [("memory_limit", J.str t)] | none => [])
    ++ [("statement", J.str d.statement)]
    ++ [("samples", J.arr (d.samples.map sampleToJ))]
    ++ [("tags", J.arr (d.tags.map J.str))])

/-! ## The effectful `scrape_problem` over an explicit environment

The browser session and the filesystem are modelled by an environment
describing what each effectful step would do: whether creating the driver
session raises, whether `driver.get` raises, what `driver.current_url`
returns (or that reading it raises), when the live `problem-statement`
element appears, the parsed page snapshot, and whether each of the two
`open(...)`/write calls raises an `OSError`. -/

/-- The exceptions one `scrape_problem` call can raise.
`sessionCreateFail` is the `webdriver.Chrome(...)` failure inside
`setup_driver` — raised at the `driver = self.setup_driver()` call, which
sits **before** the `try` block. -/
inductive ScrapeErr where
  | sessionCreateFail
  | navigation
  | currentUrlFail
  | timeout
  | notFound (msg : String)
  | ioError (path : String)
deriving Repr, DecidableEq

/-- `str(e)` for the modelled exceptions. -/
def errMsg : ScrapeErr → String
  | .sessionCreateFail => "unable to obtain driver for chrome"
  | .navigation => "net::ERR_NAME_NOT_RESOLVED"
  | .currentUrlFail => "invalid session id"
  | .timeout => "Message: timeout"
  | .notFound msg => msg
  | .ioError path => "could not write " ++ path

/-- The environment of one `scrape_problem` call.  `setupDriverOk` models
whether `webdriver.Chrome(service, options)` in `setup_driver` succeeds
(an invalid chromedriver path, for instance, makes it raise). -/
structure Env where
  setupDriverOk : Bool
  navigateOk : Bool
  currentUrl : Option String
  appearTime : Option Nat
  pageSource : Html
  txtWriteOk : Bool
  jsonWriteOk : Bool

/-- The `WebDriverWait(driver, 20)` budget. -/
def waitTimeoutSeconds : Nat := 20

/-- The `time.sleep(3)` before `driver.quit()` in the `finally` block. -/
def sleepBeforeQuitSeconds : Nat := 3

/-- Whether `wait.until(presence_of_element_located(...))` succeeds: the
element appears within the 20-unit budget. -/
def waitForStatement (env : Env) : Bool :=
  match env.appearTime with
  | some t => t ≤ waitTimeoutSeconds
  | none => false

/-- A file produced during the attempt. -/
structure FileWrite where
  path : String
  content : String
deriving Repr, DecidableEq

/-- Outcome of the `try` body of `scrape_problem`: the raised exception or
the returned record, with the files written and the console lines printed
up to that point. -/
structure AttemptOut where
  res : Except ScrapeErr ProblemData
  files : List FileWrite
  logs : List String
deriving Repr

/-- The `try` body of `scrape_problem`, step for step: navigate, print the
current URL, wait for the statement marker, parse, locate the region,
extract the fields, write the `.txt` artifact, collect samples and tags,
write the `.json` artifact, return the record. -/
def attempt (env : Env) (problem_id : String) : AttemptOut :=
  if ¬ env.navigateOk then ⟨.error .navigation, [], []⟩
  else match env.currentUrl with
  | none => ⟨.error .currentUrlFail, [], []⟩
  | some cur =>
    let log1 := ["Current URL: " ++ cur]
    if ¬ waitForStatement env then ⟨.error .timeout, [], log1⟩
    else
      let log2 := log1 ++ ["Problem statement found, extracting content..."]
      let soup := env.pageSource
      match findTagClass soup "div" "problem-statement" with
      | none => ⟨.error (.notFound "Could not find problem statement"), [], log2⟩
      | some problem_statement =>
        let title := extractTitle problem_statement
        let log3 := log2 ++ (match title with | some t => ["Found title: " ++ t] | none => [])
        let time_limit := extractTimeLimit problem_statement
        let log4 := log3 ++ (match time_limit with | some t => ["Found time limit: " ++ t] | none => [])
        let memory_limit := extractMemoryLimit problem_statement
        let log5 := log4 ++ (match memory_limit with | some t => ["Found memory limit: " ++ t] | none => [])
        let statement_text := extract_problem_statement problem_statement
        if ¬ env.txtWriteOk then ⟨.error (.ioError (txtFilePath problem_id)), [], log5⟩
        else
          let files1 := [FileWrite.mk (txtFilePath problem_id) statement_text]
          let log6 := log5 ++ ["Problem statement saved as text file: " ++ txtFilePath problem_id]
          let samples := collectSamples problem_statement
          let log7 := log6 ++ ["Found " ++ toString samples.length ++ " sample tests"]
          let tags := collectTags soup
          let data : ProblemData := ⟨title, time_limit, memory_limit, statement_text, samples, tags⟩
          if ¬ env.jsonWriteOk then ⟨.error (.ioError (jsonFilePath problem_id)), files1, log7⟩
          else
            ⟨.ok data,
             files1 ++ [FileWrite.mk (jsonFilePath problem_id) (renderJson (recordToJ data))],
             log7 ++ ["Data saved to " ++ jsonFilePath problem_id]⟩

/-- The observable outcome of one `scrape_problem` call. -/
structure ScrapeResult where
  result : Option ProblemData
  files : List FileWrite
  logs : List String
  sessionClosed : Bool
deriving Repr

/-- `CodeforcesScraper.scrape_problem` from the URL print through the
`try/except/finally`, given that `driver = self.setup_driver()` succeeded:
run the attempt; on any exception raised inside the `try` body, print the
error with the identifier and — when `driver.current_url` is itself
obtainable — the failed URL, and return `None`; the `finally` block always
closes the session.  The session-creation step itself sits before the
`try` and is modelled in `scrape_problem_call` below. -/
def scrape_problem (env : Env) (problem_id : String) : ScrapeResult :=
  let url := problemUrl problem_id
  let accessLog := "Accessing URL: " ++ url
  let a := attempt env problem_id
  match a.res with
  | .ok data =>
      { result := some data, files := a.files, logs := accessLog :: a.logs,
        sessionClosed := true }
  | .error e =>
      let errLogs :=
        ("Error scraping problem " ++ problem_id ++ ": " ++ errMsg e) ::
        (match env.currentUrl with | some u => ["Failed URL: " ++ u] | none => [])
      { result := none, files := a.files, logs := (accessLog :: a.logs) ++ errLogs,
        sessionClosed := true }

/-- What the caller of one `scrape_problem` invocation observes: either a
normal return value (`Except.ok`, carrying `Some record` or `None`) or an
exception that propagated out of the function (`Except.error`). -/
structure CallResult where
  outcome : Except ScrapeErr (Option ProblemData)
  files : List FileWrite
  logs : List String
  sessionClosed : Bool
deriving Repr

/-- The whole `scrape_problem` call as its caller observes it.  The URL is
formatted and printed first, then `driver = self.setup_driver()` runs
**outside** the `try/except/finally`: when `webdriver.Chrome` raises
there, nothing catches the exception — it propagates to the caller, no
file is written and no session is ever closed.  Only once the session
exists does the `try` body (`scrape_problem` above) run, and every
exception raised inside it is caught and converted to a `None` return. -/
def scrape_problem_call (env : Env) (problem_id : String) : CallResult :=
  let url := problemUrl problem_id
  let accessLog := "Accessing URL: " ++ url
  if env.setupDriverOk then
    let r := scrape_problem env problem_id
    { outcome := .ok r.result, files := r.files, logs := r.logs,
      sessionClosed := r.sessionClosed }
  else
    { outcome := .error .sessionCreateFail, files := [], logs := [accessLog],
      sessionClosed := false }

/-! ## An independent characterization of "contains a math span" -/

/-- Whether a node is an element `span` whose class list contains `math`. -/
def isMathSpan (c : Html) : Bool :=
  c.tagOf == "span" && c.classTokens.contains "math"

mutual
/-- Whether some descendant of the node is a `span.math` element, by direct
recursion on the tree (independent of the `find` machinery). -/
def Html.containsMathSpan : Html → Bool
  | .text _ => false
  | .elem _ _ cs => Html.containsMathSpanList cs

/-- Whether some node of the forest, or one of its descendants, is a
`span.math` element. -/
def Html.containsMathSpanList : List Html → Bool
  | [] => false
  | c :: cs => (isMathSpan c || Html.containsMathSpan c) || Html.containsMathSpanList cs
end

/-! ## Concrete documents and environments used in the theorems -/

/-- Statement region with the math span before the paragraph. -/
def regionMathFirst : Html :=
  .elem "div" "problem-statement"
    [ .elem "span" "math" [.text "x+y"]
    , .elem "p" "" [.text "Compute x+y."] ]

/-- The same region with the paragraph before the math span. -/
def regionProseFirst : Html :=
  .elem "div" "problem-statement"
    [ .elem "p" "" [.text "Compute x+y."]
    , .elem "span" "math" [.text "x+y"] ]

/-- Statement region whose only content is a generic container holding one
paragraph with text `A`. -/
def regionNestedProse : Html :=
  .elem "div" "problem-statement"
    [ .elem "div" "" [ .elem "p" "" [.text "A"] ] ]

/-- Sample-test element with complete input and output structure. -/
def testComplete1 : Html :=
  .elem "div" "sample-test"
    [ .elem "div" "input" [.elem "pre" "" [.text "in1"]]
    , .elem "div" "output" [.elem "pre" "" [.text "out1"]] ]

/-- Sample-test element with an input sub-element but no output. -/
def testInputOnly : Html :=
  .elem "div" "sample-test"
    [ .elem "div" "input" [.elem "pre" "" [.text "in2"]] ]

/-- A second complete sample-test element. -/
def testComplete3 : Html :=
  .elem "div" "sample-test"
    [ .elem "div" "input" [.elem "pre" "" [.text "in3"]]
    , .elem "div" "output" [.elem "pre" "" [.text "out3"]] ]

/-- Region with two complete sample tests around an input-only one. -/
def regionSamples : Html :=
  .elem "div" "problem-statement" [testComplete1, testInputOnly, testComplete3]

/-- A tag box: `div` with the exact compound class, holding a
`span.tag-box`. -/
def tagBox (t : String) : Html :=
  .elem "div" "roundbox borderTopRound borderBottomRound"
    [.elem "span" "tag-box" [.text t]]

/-- A document with a tag box but no `problem-statement` region. -/
def docNoRegion : Html := .elem "html" "" [tagBox "dp"]

/-- A document whose tag box sits outside the statement region. -/
def docTagsOutside : Html :=
  .elem "html" ""
    [ .elem "div" "problem-statement" [.elem "p" "" [.text "Hello."]]
    , tagBox "dp" ]

/-- A minimal well-formed document. -/
def docSimple : Html :=
  .elem "html" "" [.elem "div" "problem-statement" [.elem "p" "" [.text "Hello."]]]

/-- Environment where the live wait succeeds but the parsed snapshot has no
statement region. -/
def envNoRegion : Env :=
  { setupDriverOk := true, navigateOk := true, currentUrl := some (problemUrl "1/A"), appearTime := some 0,
    pageSource := docNoRegion, txtWriteOk := true, jsonWriteOk := true }

/-- Environment where the statement marker appears only after 25 units,
past the 20-unit budget. -/
def envTimeout : Env :=
  { setupDriverOk := true, navigateOk := true, currentUrl := some (problemUrl "4/A"), appearTime := some 25,
    pageSource := docSimple, txtWriteOk := true, jsonWriteOk := true }

/-- Environment where everything succeeds and the tag box is outside the
statement region. -/
def envTagsOutside : Env :=
  { setupDriverOk := true, navigateOk := true, currentUrl := some (problemUrl "1/A"), appearTime := some 0,
    pageSource := docTagsOutside, txtWriteOk := true, jsonWriteOk := true }

/-- Environment where the `.txt` write succeeds but the `.json` write
raises. -/
def envJsonFail : Env :=
  { setupDriverOk := true, navigateOk := true, currentUrl := some (problemUrl "4/A"), appearTime := some 0,
    pageSource := docSimple, txtWriteOk := true, jsonWriteOk := false }

/-- Environment where creating the browser session itself raises (for
instance because the hard-coded chromedriver path is invalid). -/
def envSetupFail : Env :=
  { setupDriverOk := false, navigateOk := true, currentUrl := some (problemUrl "4/A"),
    appearTime := some 0, pageSource := docSimple, txtWriteOk := true, jsonWriteOk := true }

/-! ## A JSON parser (`json.load`) and a decoder back to the record -/

/-- JSON whitespace. -/
def isWsChar (c : Char) : Bool :=
  c = ' ' || c = '\n' || c = '\t' || c = '\r'

/-- Skip leading whitespace. -/
def skipWs : List Char → List Char
  | [] => []
  | c :: r => if isWsChar c then skipWs r else c :: r

/-- Value of a hexadecimal digit. -/
def hexVal (c : Char) : Option Nat :=
  if '0' ≤ c ∧ c ≤ '9' then some (c.toNat - 48)
  else if 'a' ≤ c ∧ c ≤ 'f' then some (c.toNat - 87)
  else if 'A' ≤ c ∧ c ≤ 'F' then some (c.toNat - 55)
  else none

/-- The single-character JSON escapes. -/
def simpleEsc (c : Char) : Option Char :=
  if c = '"' then some '"'
  else if c = '\\' then some '\\'
  else if c = '/' then some '/'
  else if c = 'n' then some '\n'
  else if c = 'r' then some '\r'
  else if c = 't' then some '\t'
  else if c = 'b' then some (Char.ofNat 8)
  else if c = 'f' then some (Char.ofNat 12)
  else none

mutual
/-- Parse the body of a JSON string literal (after the opening quote) up to
its closing quote, decoding escapes. -/
def parseStrBody : List Char → Option (List Char × List Char)
  | [] => none
  | c :: r =>
      if c = '"' then some ([], r)
      else if c = '\\' then parseEscTail r
      else (parseStrBody r).map (fun p => (c :: p.1, p.2))

/-- Parse what follows a backslash inside a string literal, then the rest
of the body. -/
def parseEscTail : List Char → Option (List Char × List Char)
  | 'u' :: h1 :: h2 :: h3 :: h4 :: r =>
      (match hexVal h1, hexVal h2, hexVal h3, hexVal h4 with
       | some a, some b, some c, some d =>
           (parseStrBody r).map
             (fun p => (Char.ofNat (((a * 16 + b) * 16 + c) * 16 + d) :: p.1, p.2))
       | _, _, _, _ => none)
  | e :: r =>
      (match simpleEsc e with
       | some c => (parseStrBody r).map (fun p => (c :: p.1, p.2))
       | none => none)
  | [] => none
end

mutual
/-- Parse one JSON value (string, array or object), fuelled by the nesting
budget; leading whitespace is skipped here. -/
def parseVal : Nat → List Char → Option (J × List Char)
  | 0, _ => none
  | fuel + 1, l =>
      match skipWs l with
      | [] => none
      | c :: r =>
          if c = '"' then (parseStrBody r).map (fun p => (J.str ⟨p.1⟩, p.2))
          else if c = '[' then
            (match skipWs r with
             | [] => none
             | c2 :: r2 =>
                 if c2 = ']' then some (J.arr [], r2)
                 else (parseItems fuel (c2 :: r2)).map (fun p => (J.arr p.1, p.2)))
          else if c = '\x7b' then
            (match skipWs r with
             | [] => none
             | c2 :: r2 =>
                 if c2 = '\x7d' then some (J.obj [], r2)
                 else (parseFields fuel (c2 :: r2)).map (fun p => (J.obj p.1, p.2)))
          else none

/-- Parse the items of a non-empty array up to the closing bracket. -/
def parseItems : Nat → List Char → Option (List J × List Char)
  | 0, _ => none
  | fuel + 1, l =>
      match parseVal fuel l with
      | none => none
      | some (v, r) =>
          (match skipWs r with
           | [] => none
           | c :: r2 =>
               if c = ',' then (parseItems fuel r2).map (fun p => (v :: p.1, p.2))
               else if c = ']' then some ([v], r2)
               else none)

/-- Parse the fields of a non-empty object up to the closing brace. -/
def parseFields : Nat → List Char → Option (List (String × J) × List Char)
  | 0, _ => none
  | fuel + 1, l =>
      match skipWs l with
      | [] => none
      | c :: r =>
          if c = '"' then
            (match parseStrBody r with
             | none => none
             | some (k, r2) =>
                 match skipWs r2 with
                 | [] => none
                 | c3 :: r3 =>
                     if c3 = ':' then
                       (match parseVal fuel r3 with
                        | none => none
                        | some (v, r4) =>
                            match skipWs r4 with
                            | [] => none
                            | c5 :: r5 =>
                                if c5 = ',' then
                                  (parseFields fuel r5).map
                                    (fun p => ((⟨k⟩, v) :: p.1, p.2))
                                else if c5 = '\x7d' then some ([(⟨k⟩, v)], r5)
                                else none)
                     else none)
          else none
end

/-- `json.load` on the artifact text: parse one value, then require only
trailing whitespace. -/
def parseJson (s : String) : Option J :=
  match parseVal (s.length + 1) s.data with
  | some (v, r) => if skipWs r = [] then some v else none
  | none => none

mutual
/-- Fuel needed by `parseVal` for a value. -/
def needJ : J → Nat
  | .str _ => 1
  | .arr xs => needItems xs + 2
  | .obj fs => needFields fs + 2

/-- Fuel needed by `parseItems` for an item list. -/
def needItems : List J → Nat
  | [] => 0
  | x :: xs => needJ x + needItems xs + 1

/-- Fuel needed by `parseFields` for a field list. -/
def needFields : List (String × J) → Nat
  | [] => 0
  | f :: fs => needJ f.2 + needFields fs + 1
end

/-- Read an optional leading `title` string field. -/
def recTitle : List (String × J) → Option String × List (String × J)
  | ("title", .str t) :: rest => (some t, rest)
  | fs => (none, fs)

/-- Read an optional leading `time_limit` string field. -/
def recTime : List (String × J) → Option String × List (String × J)
  | ("time_limit", .str t) :: rest => (some t, rest)
  | fs => (none, fs)

/-- Read an optional leading `memory_limit` string field. -/
def recMem : List (String × J) → Option String × List (String × J)
  | ("memory_limit", .str t) :: rest => (some t, rest)
  | fs => (none, fs)

/-- Decode one sample object. -/
def sampleOfJ : J → Option Sample
  | .obj [("input", .str i), ("output", .str o)] => some ⟨i, o⟩
  | _ => none

/-- Decode a list of sample objects. -/
def sampleListOfJ : List J → Option (List Sample)
  | [] => some []
  | x :: xs =>
      match sampleOfJ x, sampleListOfJ xs with
      | some s, some l => some (s :: l)
      | _, _ => none

/-- Decode a list of strings. -/
def strListOfJ : List J → Option (List String)
  | [] => some []
  | .str s :: xs => (strListOfJ xs).map (fun l => s :: l)
  | _ => none

/-- Decode the parsed JSON object back into the record, field sequence and
ordering as written. -/
def recordOfJ : J → Option ProblemData
  | .obj fs0 =>
      (match recTitle fs0 with
       | (title, fs1) =>
         match recTime fs1 with
         | (time_limit, fs2) =>
           match recMem fs2 with
           | (memory_limit, fs3) =>
             match fs3 with
             | [("statement", J.str st), ("samples", J.arr sx), ("tags", J.arr tx)] =>
                 (match sampleListOfJ sx, strListOfJ tx with
                  | some samples, some tags =>
                      some ⟨title, time_limit, memory_limit, st, samples, tags⟩
                  | _, _ => none)
             | _ => none)
  | _ => none

/-! ## Helper lemmas -/

/-- The head of a filtered list is present exactly when some element
satisfies the predicate. -/
theorem head_filter_isSome {α : Type} (p : α → Bool) :
    ∀ l : List α, ((l.filter p).head?).isSome = l.any p := by
  intro l
  induction l with
  | nil => rfl
  | cons a l ih =>
      by_cases h : p a = true
      · rw [List.filter_cons_of_pos h, List.any_cons, h, Bool.true_or]
        rfl
      · simp only [Bool.not_eq_true] at h
        rw [List.filter_cons_of_neg (by simp [h]), List.any_cons, h, Bool.false_or, ih]

mutual
/-- `any isMathSpan` over the descendants coincides with the direct
recursive predicate. -/
theorem descendants_any_mathSpan : ∀ h : Html,
    h.descendants.any isMathSpan = h.containsMathSpan
  | .text _ => rfl
  | .elem _ _ cs => descList_any_mathSpan cs

/-- Forest version of `descendants_any_mathSpan`. -/
theorem descList_any_mathSpan : ∀ cs : List Html,
    (Html.descList cs).any isMathSpan = Html.containsMathSpanList cs
  | [] => rfl
  | .text s :: cs => descList_any_mathSpan cs
  | .elem t k gs :: cs => by
      have ihc := descendants_any_mathSpan (Html.elem t k gs)
      have ihs := descList_any_mathSpan cs
      show (isMathSpan (Html.elem t k gs)
              || ((Html.elem t k gs).descendants ++ Html.descList cs).any isMathSpan)
          = ((isMathSpan (Html.elem t k gs) || (Html.elem t k gs).containsMathSpan)
              || Html.containsMathSpanList cs)
      rw [List.any_append, ihc, ihs, Bool.or_assoc]
end

/-- `find('span', class_='math')` succeeds exactly when the node contains a
math span descendant. -/
theorem findTagClass_math_isSome (h : Html) :
    (findTagClass h "span" "math").isSome = h.containsMathSpan := by
  rw [findTagClass, findAllTagClass, head_filter_isSome, ← descendants_any_mathSpan]
  rfl

/-- The two artifact paths always differ (their suffixes differ). -/
theorem txtFilePath_ne_jsonFilePath (problem_id : String) :
    txtFilePath problem_id ≠ jsonFilePath problem_id := by
  intro h
  have hl := congrArg String.length h
  simp only [txtFilePath, jsonFilePath, String.length_append] at hl
  have h4 : (".txt" : String).length = 4 := rfl
  have h5 : (".json" : String).length = 5 := rfl
  rw [h4, h5] at hl
  omega

/-! ### Round-trip lemmas for the JSON serializer -/

theorem skipWs_cons_not {c : Char} (l : List Char) (h : isWsChar c = false) :
    skipWs (c :: l) = c :: l := by
  simp [skipWs, h]

theorem skipWs_replicate_space (n : Nat) (l : List Char) :
    skipWs (List.replicate n ' ' ++ l) = skipWs l := by
  induction n with
  | zero => rfl
  | succ n ih => simpa [List.replicate_succ, skipWs, isWsChar] using ih

theorem skipWs_nlIndent (n : Nat) (l : List Char) :
    skipWs (nlIndent n ++ l) = skipWs l := by
  simpa [nlIndent, skipWs, isWsChar] using skipWs_replicate_space n l

theorem hexVal_hexDigitChar : ∀ n : Nat, n < 16 → hexVal (hexDigitChar n) = some n := by
  decide

theorem parseStrBody_backslash (r : List Char) : parseStrBody ('\\' :: r) = parseEscTail r := by
  rw [parseStrBody, if_neg (by decide), if_pos rfl]

theorem parseEscTail_u (h1 h2 h3 h4 : Char) (a b e d : Nat) (r : List Char)
    (ha : hexVal h1 = some a) (hb : hexVal h2 = some b)
    (he : hexVal h3 = some e) (hd : hexVal h4 = some d) :
    parseEscTail ('u' :: h1 :: h2 :: h3 :: h4 :: r)
      = (parseStrBody r).map
          (fun p => (Char.ofNat (((a * 16 + b) * 16 + e) * 16 + d) :: p.1, p.2)) := by
  rw [parseEscTail]
  simp [ha, hb, he, hd]

theorem parseStrBody_escapeChar (c : Char) (tail : List Char) (o : List Char × List Char)
    (h : parseStrBody tail = some o) :
    parseStrBody (escapeChar c ++ tail) = some (c :: o.1, o.2) := by
  by_cases h1 : c = '"'
  · subst h1; simp [escapeChar, parseStrBody, parseEscTail, simpleEsc, h]
  by_cases h2 : c = '\\'
  · subst h2; simp [escapeChar, parseStrBody, parseEscTail, simpleEsc, h]
  by_cases h3 : c = '\n'
  · subst h3; simp [escapeChar, parseStrBody, parseEscTail, simpleEsc, h]
  by_cases h4 : c = '\r'
  · subst h4; simp [escapeChar, parseStrBody, parseEscTail, simpleEsc, h]
  by_cases h5 : c = '\t'
  · subst h5; simp [escapeChar, parseStrBody, parseEscTail, simpleEsc, h]
  by_cases h6 : c.toNat = 8
  · have hc : Char.ofNat 8 = c := by rw [← h6, Char.ofNat_toNat]
    simp only [escapeChar, if_neg h1, if_neg h2, if_neg h3, if_neg h4, if_neg h5,
      if_pos h6, List.cons_append, List.nil_append]
    rw [parseStrBody_backslash]
    simp [parseEscTail, simpleEsc, h]
    exact hc
  by_cases h7 : c.toNat = 12
  · have hc : Char.ofNat 12 = c := by rw [← h7, Char.ofNat_toNat]
    simp only [escapeChar, if_neg h1, if_neg h2, if_neg h3, if_neg h4, if_neg h5,
      if_neg h6, if_pos h7, List.cons_append, List.nil_append]
    rw [parseStrBody_backslash]
    simp [parseEscTail, simpleEsc, h]
    exact hc
  by_cases h8 : c.toNat < 32
  · have hdiv : c.toNat / 16 < 16 := by omega
    have hmod : c.toNat % 16 < 16 := Nat.mod_lt _ (by omega)
    have hchar : Char.ofNat (((0 * 16 + 0) * 16 + c.toNat / 16) * 16 + c.toNat % 16) = c := by
      rw [show ((0 * 16 + 0) * 16 + c.toNat / 16) * 16 + c.toNat % 16 = c.toNat from by omega,
        Char.ofNat_toNat]
    have hstep := parseEscTail_u '0' '0' (hexDigitChar (c.toNat / 16))
      (hexDigitChar (c.toNat % 16)) 0 0 (c.toNat / 16) (c.toNat % 16) tail
      (by decide) (by decide) (hexVal_hexDigitChar _ hdiv) (hexVal_hexDigitChar _ hmod)
    simp only [escapeChar, if_neg h1, if_neg h2, if_neg h3, if_neg h4, if_neg h5,
      if_neg h6, if_neg h7, if_pos h8, List.cons_append, List.nil_append]
    rw [parseStrBody_backslash, hstep, h]
    simp
    rw [show c.toNat / 16 * 16 + c.toNat % 16 = c.toNat from by omega, Char.ofNat_toNat]
  · simp [escapeChar, h1, h2, h3, h4, h5, h6, h7, h8, parseStrBody, h]

theorem parseStrBody_escList : ∀ (s rest : List Char),
    parseStrBody (escList s ++ '"' :: rest) = some (s, rest)
  | [], rest => by simp [escList, parseStrBody]
  | c :: s, rest => by
      have ih := parseStrBody_escList s rest
      show parseStrBody ((escapeChar c ++ escList s) ++ '"' :: rest) = some (c :: s, rest)
      rw [List.append_assoc]
      exact parseStrBody_escapeChar c _ (s, rest) ih

theorem renderJ_head_cases (j : J) (ind : Nat) :
    ∃ c l, renderJ ind j = c :: l ∧ isWsChar c = false ∧ c ≠ ']' ∧ c ≠ '\x7d' := by
  cases j with
  | str s => exact ⟨'"', _, rfl, by decide, by decide, by decide⟩
  | arr xs =>
      cases xs with
      | nil => exact ⟨'[', [']'], rfl, by decide, by decide, by decide⟩
      | cons x xs => exact ⟨'[', _, rfl, by decide, by decide, by decide⟩
  | obj fs =>
      cases fs with
      | nil => exact ⟨'\x7b', ['\x7d'], rfl, by decide, by decide, by decide⟩
      | cons f fs => exact ⟨'\x7b', _, rfl, by decide, by decide, by decide⟩

theorem skipWs_renderJ (j : J) (ind : Nat) (rest : List Char) :
    skipWs (renderJ ind j ++ rest) = renderJ ind j ++ rest := by
  obtain ⟨c, l, hc, hw, _, _⟩ := renderJ_head_cases j ind
  rw [hc, List.cons_append, skipWs_cons_not _ hw]

mutual
theorem needJ_le : ∀ (j : J) (ind : Nat), needJ j ≤ (renderJ ind j).length
  | .str s, ind => by simp [needJ, renderJ, renderJStr]
  | .arr [], ind => by simp [needJ, needItems, renderJ, renderArr]
  | .arr (x :: xs), ind => by
      have h1 := needJ_le x (ind + 2)
      have h2 := needItems_le xs (ind + 2)
      simp only [needJ, needItems, renderJ, renderArr, nlIndent, List.length_cons,
        List.length_append, List.length_replicate, List.length_singleton]
      omega
  | .obj [], ind => by simp [needJ, needFields, renderJ, renderObj]
  | .obj ((k, v) :: fs), ind => by
      have h1 := needJ_le v (ind + 2)
      have h2 := needFields_le fs (ind + 2)
      simp only [needJ, needFields, renderJ, renderObj, renderField, renderJStr, nlIndent,
        List.length_cons, List.length_append, List.length_replicate, List.length_singleton]
      omega

theorem needItems_le : ∀ (xs : List J) (ind : Nat), needItems xs ≤ (renderArrTail ind xs).length
  | [], ind => by simp [needItems, renderArrTail]
  | x :: xs, ind => by
      have h1 := needJ_le x ind
      have h2 := needItems_le xs ind
      simp only [needItems, renderArrTail, nlIndent, List.length_cons, List.length_append,
        List.length_replicate]
      omega

theorem needFields_le : ∀ (fs : List (String × J)) (ind : Nat),
    needFields fs ≤ (renderObjTail ind fs).length
  | [], ind => by simp [needFields, renderObjTail]
  | (k, v) :: fs, ind => by
      have h1 := needJ_le v ind
      have h2 := needFields_le fs ind
      simp only [needFields, renderObjTail, renderField, renderJStr, nlIndent,
        List.length_cons, List.length_append, List.length_replicate]
      omega
end

theorem parseVal_nlIndent (fuel n : Nat) (l : List Char) :
    parseVal fuel (nlIndent n ++ l) = parseVal fuel l := by
  cases fuel with
  | zero => rfl
  | succ f => rw [parseVal, parseVal, skipWs_nlIndent]

theorem parseItems_nlIndent (fuel n : Nat) (l : List Char) :
    parseItems fuel (nlIndent n ++ l) = parseItems fuel l := by
  cases fuel with
  | zero => rfl
  | succ f => rw [parseItems, parseItems, parseVal_nlIndent]

theorem parseFields_nlIndent (fuel n : Nat) (l : List Char) :
    parseFields fuel (nlIndent n ++ l) = parseFields fuel l := by
  cases fuel with
  | zero => rfl
  | succ f => rw [parseFields, parseFields, skipWs_nlIndent]

theorem parseVal_space (fuel : Nat) (l : List Char) :
    parseVal fuel (' ' :: l) = parseVal fuel l := by
  cases fuel with
  | zero => rfl
  | succ f =>
      rw [parseVal, parseVal, show skipWs (' ' :: l) = skipWs l from by simp [skipWs, isWsChar]]

mutual
theorem parseVal_render : ∀ (j : J) (fuel ind : Nat) (rest : List Char),
    needJ j ≤ fuel → parseVal fuel (renderJ ind j ++ rest) = some (j, rest)
  | .str s, fuel, ind, rest, h => by
      cases fuel with
      | zero => simp [needJ] at h
      | succ f =>
          have hshape : renderJ ind (J.str s) ++ rest
              = '"' :: (escList s.data ++ ('"' :: rest)) := by
            simp [renderJ, renderJStr]
          rw [hshape, parseVal, skipWs_cons_not _ (by decide)]
          simp [parseStrBody_escList]
  | .arr [], fuel, ind, rest, h => by
      cases fuel with
      | zero => simp [needJ, needItems] at h
      | succ f =>
          have hshape : renderJ ind (J.arr []) ++ rest = '[' :: (']' :: rest) := by
            simp [renderJ, renderArr]
          rw [hshape, parseVal, skipWs_cons_not _ (by decide)]
          simp [show skipWs (']' :: rest) = ']' :: rest from skipWs_cons_not _ (by decide)]
  | .arr (x :: xs), fuel, ind, rest, h => by
      cases fuel with
      | zero => exact absurd h (by simp only [needJ, needItems]; omega)
      | succ f =>
          have hneed : needItems (x :: xs) ≤ f := by
            simp only [needJ] at h; omega
          have hshape : renderJ ind (J.arr (x :: xs)) ++ rest
              = '[' :: (nlIndent (ind + 2) ++ (renderJ (ind + 2) x
                  ++ (renderArrTail (ind + 2) xs ++ (nlIndent ind ++ (']' :: rest))))) := by
            simp [renderJ, renderArr]
          rw [hshape, parseVal, skipWs_cons_not _ (by decide)]
          obtain ⟨c, l, hc, hw, hbr, hbc⟩ := renderJ_head_cases x (ind + 2)
          have hskip : skipWs (nlIndent (ind + 2) ++ (renderJ (ind + 2) x
              ++ (renderArrTail (ind + 2) xs ++ (nlIndent ind ++ (']' :: rest)))))
              = c :: (l ++ (renderArrTail (ind + 2) xs ++ (nlIndent ind ++ (']' :: rest)))) := by
            rw [skipWs_nlIndent, skipWs_renderJ, hc, List.cons_append]
          have hPI : parseItems f (c :: (l ++ (renderArrTail (ind + 2) xs
              ++ (nlIndent ind ++ (']' :: rest))))) = some (x :: xs, rest) := by
            rw [← List.cons_append, ← hc]
            exact parseItems_render x xs f (ind + 2) ind rest hneed
          simp [hskip, hbr, hPI]
  | .obj [], fuel, ind, rest, h => by
      cases fuel with
      | zero => simp [needJ, needFields] at h
      | succ f =>
          have hshape : renderJ ind (J.obj []) ++ rest = '\x7b' :: ('\x7d' :: rest) := by
            simp [renderJ, renderObj]
          rw [hshape, parseVal, skipWs_cons_not _ (by decide)]
          simp [show skipWs ('\x7d' :: rest) = '\x7d' :: rest from
            skipWs_cons_not _ (by decide)]
  | .obj ((k, v) :: fs), fuel, ind, rest, h => by
      cases fuel with
      | zero => exact absurd h (by simp only [needJ, needFields]; omega)
      | succ f =>
          have hneed : needFields ((k, v) :: fs) ≤ f := by
            simp only [needJ] at h; omega
          have hshape : renderJ ind (J.obj ((k, v) :: fs)) ++ rest
              = '\x7b' :: (nlIndent (ind + 2) ++ (renderField (ind + 2) (k, v)
                  ++ (renderObjTail (ind + 2) fs ++ (nlIndent ind ++ ('\x7d' :: rest))))) := by
            simp [renderJ, renderObj]
          rw [hshape, parseVal, skipWs_cons_not _ (by decide)]
          have hfield : renderField (ind + 2) (k, v)
              ++ (renderObjTail (ind + 2) fs ++ (nlIndent ind ++ ('\x7d' :: rest)))
              = '"' :: (escList k.data ++ ('"' :: (':' :: (' ' :: (renderJ (ind + 2) v
                  ++ (renderObjTail (ind + 2) fs ++ (nlIndent ind ++ ('\x7d' :: rest)))))))) := by
            simp [renderField, renderJStr]
          have hskip : skipWs (nlIndent (ind + 2) ++ (renderField (ind + 2) (k, v)
              ++ (renderObjTail (ind + 2) fs ++ (nlIndent ind ++ ('\x7d' :: rest)))))
              = '"' :: (escList k.data ++ ('"' :: (':' :: (' ' :: (renderJ (ind + 2) v
                  ++ (renderObjTail (ind + 2) fs ++ (nlIndent ind ++ ('\x7d' :: rest)))))))) := by
            rw [skipWs_nlIndent, hfield, skipWs_cons_not _ (by decide)]
          have hPF : parseFields f ('"' :: (escList k.data ++ ('"' :: (':' :: (' '
              :: (renderJ (ind + 2) v ++ (renderObjTail (ind + 2) fs
                  ++ (nlIndent ind ++ ('\x7d' :: rest)))))))))
              = some ((k, v) :: fs, rest) := by
            rw [← hfield]
            exact parseFields_render (k, v) fs f (ind + 2) ind rest hneed
          simp [hskip, hPF]
  termination_by j _ _ _ => sizeOf j
  decreasing_by
    all_goals simp_wf

theorem parseItems_render : ∀ (x : J) (xs : List J) (fuel ind ind2 : Nat) (rest : List Char),
    needItems (x :: xs) ≤ fuel →
    parseItems fuel (renderJ ind x ++ (renderArrTail ind xs ++ (nlIndent ind2 ++ (']' :: rest))))
      = some (x :: xs, rest)
  | x, xs, fuel, ind, ind2, rest, h => by
      cases fuel with
      | zero => exact absurd h (by simp only [needItems]; omega)
      | succ f =>
          have hx : needJ x ≤ f := by simp only [needItems] at h; omega
          rw [parseItems, parseVal_render x f ind _ hx]
          cases xs with
          | nil =>
              have ht : skipWs (renderArrTail ind ([] : List J)
                  ++ (nlIndent ind2 ++ (']' :: rest))) = ']' :: rest := by
                rw [show renderArrTail ind ([] : List J) = [] from rfl, List.nil_append,
                  skipWs_nlIndent, skipWs_cons_not _ (by decide)]
              simp [ht]
          | cons y ys =>
              have hneed2 : needItems (y :: ys) ≤ f := by
                simp only [needItems] at h ⊢; omega
              have ht : skipWs (renderArrTail ind (y :: ys)
                  ++ (nlIndent ind2 ++ (']' :: rest)))
                  = ',' :: (nlIndent ind ++ (renderJ ind y
                      ++ (renderArrTail ind ys ++ (nlIndent ind2 ++ (']' :: rest))))) := by
                rw [show renderArrTail ind (y :: ys)
                    = ',' :: (nlIndent ind ++ (renderJ ind y ++ renderArrTail ind ys))
                  from by simp [renderArrTail], List.cons_append,
                  skipWs_cons_not _ (by decide)]
                simp [List.append_assoc]
              have hPI : parseItems f (nlIndent ind ++ (renderJ ind y
                  ++ (renderArrTail ind ys ++ (nlIndent ind2 ++ (']' :: rest)))))
                  = some (y :: ys, rest) := by
                rw [parseItems_nlIndent]
                exact parseItems_render y ys f ind ind2 rest hneed2
              simp [ht, hPI]
  termination_by x xs _ _ _ _ => 1 + sizeOf x + sizeOf xs
  decreasing_by
    all_goals simp_wf
    all_goals try subst_vars
    all_goals simp_arith [List.cons.sizeOf_spec, Prod.mk.sizeOf_spec]

theorem parseFields_render : ∀ (f0 : String × J) (fs : List (String × J))
    (fuel ind ind2 : Nat) (rest : List Char),
    needFields (f0 :: fs) ≤ fuel →
    parseFields fuel (renderField ind f0
        ++ (renderObjTail ind fs ++ (nlIndent ind2 ++ ('\x7d' :: rest))))
      = some (f0 :: fs, rest)
  | (k, v), fs, fuel, ind, ind2, rest, h => by
      cases fuel with
      | zero => exact absurd h (by simp only [needFields]; omega)
      | succ f =>
          have hv : needJ v ≤ f := by simp only [needFields] at h; omega
          have hshape : renderField ind (k, v)
              ++ (renderObjTail ind fs ++ (nlIndent ind2 ++ ('\x7d' :: rest)))
              = '"' :: (escList k.data ++ ('"' :: (':' :: (' ' :: (renderJ ind v
                  ++ (renderObjTail ind fs ++ (nlIndent ind2 ++ ('\x7d' :: rest)))))))) := by
            simp [renderField, renderJStr]
          rw [hshape, parseFields, skipWs_cons_not _ (by decide)]
          have hstr := parseStrBody_escList k.data
            (':' :: (' ' :: (renderJ ind v
              ++ (renderObjTail ind fs ++ (nlIndent ind2 ++ ('\x7d' :: rest))))))
          have hcol : skipWs (':' :: (' ' :: (renderJ ind v
              ++ (renderObjTail ind fs ++ (nlIndent ind2 ++ ('\x7d' :: rest))))))
              = ':' :: (' ' :: (renderJ ind v
              ++ (renderObjTail ind fs ++ (nlIndent ind2 ++ ('\x7d' :: rest))))) :=
            skipWs_cons_not _ (by decide)
          have hPV : parseVal f (' ' :: (renderJ ind v
              ++ (renderObjTail ind fs ++ (nlIndent ind2 ++ ('\x7d' :: rest)))))
              = some (v, renderObjTail ind fs ++ (nlIndent ind2 ++ ('\x7d' :: rest))) := by
            rw [parseVal_space]
            exact parseVal_render v f ind _ hv
          cases fs with
          | nil =>
              have ht : skipWs (renderObjTail ind ([] : List (String × J))
                  ++ (nlIndent ind2 ++ ('\x7d' :: rest))) = '\x7d' :: rest := by
                rw [show renderObjTail ind ([] : List (String × J)) = [] from rfl,
                  List.nil_append, skipWs_nlIndent, skipWs_cons_not _ (by decide)]
              simp [hstr, hcol, hPV, ht]
          | cons f2 fs2 =>
              have hneed2 : needFields (f2 :: fs2) ≤ f := by
                simp only [needFields] at h ⊢; omega
              have ht : skipWs (renderObjTail ind (f2 :: fs2)
                  ++ (nlIndent ind2 ++ ('\x7d' :: rest)))
                  = ',' :: (nlIndent ind ++ (renderField ind f2
                      ++ (renderObjTail ind fs2 ++ (nlIndent ind2 ++ ('\x7d' :: rest))))) := by
                rw [show renderObjTail ind (f2 :: fs2)
                    = ',' :: (nlIndent ind ++ (renderField ind f2 ++ renderObjTail ind fs2))
                  from by simp [renderObjTail], List.cons_append,
                  skipWs_cons_not _ (by decide)]
                simp [List.append_assoc]
              have hPF : parseFields f (nlIndent ind ++ (renderField ind f2
                  ++ (renderObjTail ind fs2 ++ (nlIndent ind2 ++ ('\x7d' :: rest)))))
                  = some (f2 :: fs2, rest) := by
                rw [parseFields_nlIndent]
                exact parseFields_render f2 fs2 f ind ind2 rest hneed2
              simp [hstr, hcol, hPV, ht, hPF]
  termination_by f0 fs _ _ _ _ => 1 + sizeOf f0 + sizeOf fs
  decreasing_by
    all_goals simp_wf
    all_goals try subst_vars
    all_goals simp_arith [List.cons.sizeOf_spec, Prod.mk.sizeOf_spec]
end

theorem parseJson_renderJson (j : J) : parseJson (renderJson j) = some j := by
  have hfuel : needJ j ≤ (renderJ 0 j).length + 1 :=
    le_trans (needJ_le j 0) (Nat.le_succ _)
  have h := parseVal_render j ((renderJ 0 j).length + 1) 0 [] hfuel
  rw [List.append_nil] at h
  show (match parseVal ((renderJ 0 j).length + 1) (renderJ 0 j) with
        | some (v, r) => if skipWs r = [] then some v else none
        | none => none) = some j
  rw [h]
  simp [skipWs]

theorem sampleListOfJ_map (l : List Sample) :
    sampleListOfJ (l.map sampleToJ) = some l := by
  induction l with
  | nil => rfl
  | cons s l ih => simp [sampleListOfJ, sampleOfJ, sampleToJ, ih]

theorem strListOfJ_map (l : List String) :
    strListOfJ (l.map J.str) = some l := by
  induction l with
  | nil => rfl
  | cons s l ih => simp [strListOfJ, ih]

theorem recordOfJ_recordToJ (d : ProblemData) : recordOfJ (recordToJ d) = some d := by
  obtain ⟨t, tl, ml, st, sm, tg⟩ := d
  cases t <;> cases tl <;> cases ml <;>
    simp [recordToJ, recordOfJ, recTitle, recTime, recMem,
      sampleListOfJ_map, strListOfJ_map]

/-- On a fully successful environment, the attempt returns the record built
from the region and the full document, and writes both artifacts. -/
theorem attempt_ok_shape (env : Env) (problem_id u : String) (ps : Html)
    (h1 : env.navigateOk = true) (h2 : env.currentUrl = some u)
    (h3 : waitForStatement env = true)
    (h4 : findTagClass env.pageSource "div" "problem-statement" = some ps)
    (h5 : env.txtWriteOk = true) (h6 : env.jsonWriteOk = true) :
    (attempt env problem_id).res
      = .ok ⟨extractTitle ps, extractTimeLimit ps, extractMemoryLimit ps,
             extract_problem_statement ps, collectSamples ps, collectTags env.pageSource⟩ ∧
    (attempt env problem_id).files
      = [⟨txtFilePath problem_id, extract_problem_statement ps⟩,
         ⟨jsonFilePath problem_id,
          renderJson (recordToJ ⟨extractTitle ps, extractTimeLimit ps, extractMemoryLimit ps,
            extract_problem_statement ps, collectSamples ps, collectTags env.pageSource⟩)⟩] := by
  constructor <;> simp [attempt, h1, h2, h3, h4, h5, h6]

/-- When only the `.json` write fails, the attempt raises after having
written exactly the `.txt` artifact. -/
theorem attempt_jsonFail_shape (env : Env) (problem_id u : String) (ps : Html)
    (h1 : env.navigateOk = true) (h2 : env.currentUrl = some u)
    (h3 : waitForStatement env = true)
    (h4 : findTagClass env.pageSource "div" "problem-statement" = some ps)
    (h5 : env.txtWriteOk = true) (h6 : env.jsonWriteOk = false) :
    (attempt env problem_id).res = .error (.ioError (jsonFilePath problem_id)) ∧
    (attempt env problem_id).files
      = [⟨txtFilePath problem_id, extract_problem_statement ps⟩] := by
  constructor <;> simp [attempt, h1, h2, h3, h4, h5, h6]

/-! ## Claim theorems -/

/-- C1: for a statement region containing exactly one math span `x+y` and
one paragraph `Compute x+y.`, `extract_problem_statement` returns
`"$$ x+y $$\nCompute x+y."` — the delimited math block first, then the
prose — in both source document orders. -/
theorem c1_math_block_before_prose :
    extract_problem_statement regionMathFirst = "$$ x+y $$\nCompute x+y." ∧
    extract_problem_statement regionProseFirst = "$$ x+y $$\nCompute x+y." := by
  exact ⟨by decide, by decide⟩

/-- C8: serializing a record to the JSON artifact text (exactly as
`json.dump(..., indent=2, ensure_ascii=False)` lays it out) and parsing
that text back yields the identical JSON object, which decodes to a record
with the same present fields, values, and sample/tag order. -/
theorem c8_json_artifact_round_trip :
    ∀ d : ProblemData,
      (parseJson (renderJson (recordToJ d))).bind recordOfJ = some d ∧
      parseJson (renderJson (recordToJ d)) = some (recordToJ d) := by
  intro d
  refine ⟨?_, parseJson_renderJson (recordToJ d)⟩
  rw [parseJson_renderJson (recordToJ d)]
  simpa using recordOfJ_recordToJ d

/-- C9: for a statement region whose only content is a generic container
holding one paragraph with text `A`, the prose pass emits the text once for
the container and once for the paragraph, so the result is `"A\nA"`. -/
theorem c9_nested_prose_duplicated :
    extract_problem_statement regionNestedProse = "A\nA" := by decide

/-- C7: the `.txt` and `.json` artifacts share one deterministic filename
stem, the identifier with every `/` replaced by `_`. -/
theorem c7_filename_stems_agree :
    ∀ problem_id : String,
      txtFilePath problem_id = data_dir ++ "/problem_" ++ sanitizeId problem_id ++ ".txt" ∧
      jsonFilePath problem_id = data_dir ++ "/problem_" ++ sanitizeId problem_id ++ ".json" ∧
      ∀ i : Nat,
        (sanitizeId problem_id).data[i]?
          = (problem_id.data[i]?).map (fun c => if c = '/' then '_' else c) := by
  intro problem_id
  refine ⟨rfl, rfl, ?_⟩
  intro i
  simp [sanitizeId, List.getElem?_map]

/-- C6: in the prose pass, a `p`/`div` descendant of the region contributes
its trimmed text exactly when it does not contain a math-span descendant
(characterized by the direct recursive predicate `containsMathSpan`), the
kept fragments appearing in their own document order after the math
fragments. -/
theorem c6_prose_pass_excludes_math_containers :
    ∀ region : Html,
      extract_problem_statement region =
        joinNl ((((findAllTagClass region "span" "math").map
                    (fun latex => "$$ " ++ pstrip latex.textOf ++ " $$"))
          ++ ((findAllTags region ["p", "div"]).filterMap
                (fun paragraph =>
                  if paragraph.containsMathSpan then none
                  else some (pstrip paragraph.textOf)))).filter (fun s => s != "")) := by
  intro region
  have hfm : (findAllTags region ["p", "div"]).filterMap
        (fun paragraph =>
          if (findTagClass paragraph "span" "math").isSome then none
          else some (pstrip paragraph.textOf))
      = (findAllTags region ["p", "div"]).filterMap
        (fun paragraph =>
          if paragraph.containsMathSpan then none
          else some (pstrip paragraph.textOf)) :=
    List.filterMap_congr (fun p _ => by rw [findTagClass_math_isSome])
  show joinNl (List.filter (fun s => s != "")
      ((findAllTagClass region "span" "math").map
          (fun latex => "$$ " ++ pstrip latex.textOf ++ " $$")
        ++ (findAllTags region ["p", "div"]).filterMap
            (fun paragraph =>
              if (findTagClass paragraph "span" "math").isSome then none
              else some (pstrip paragraph.textOf)))) = _
  rw [hfm]

/-- C5: a sample pair is produced exactly when both the `div.input` with an
inner `pre` and the `div.output` with an inner `pre` are present; the pairs
are the `filterMap` of the sample-test elements in document order, and a
test with an input but no output is skipped (concrete region). -/
theorem c5_samples_require_input_and_output :
    (∀ test : Html,
      (extractSample test).isSome ↔
        ((∃ input_div, findTagClass test "div" "input" = some input_div ∧
            (findTag input_div "pre").isSome) ∧
         (∃ output_div, findTagClass test "div" "output" = some output_div ∧
            (findTag output_div "pre").isSome))) ∧
    (∀ region : Html,
      collectSamples region
        = (findAllTagClass region "div" "sample-test").filterMap extractSample) ∧
    collectSamples regionSamples = [⟨"in1", "out1"⟩, ⟨"in3", "out3"⟩] := by
  refine ⟨?_, fun _ => rfl, by decide⟩
  intro test
  cases h1 : findTagClass test "div" "input" with
  | none => simp [extractSample, h1]
  | some input_div =>
      cases h2 : findTagClass test "div" "output" with
      | none => simp [extractSample, h1, h2]
      | some output_div =>
          cases h3 : findTag input_div "pre" with
          | none => simp [extractSample, h1, h2, h3]
          | some input_pre =>
              cases h4 : findTag output_div "pre" with
              | none => simp [extractSample, h1, h2, h3, h4]
              | some output_pre => simp [extractSample, h1, h2, h3, h4]

/-- C2 counterexample: `driver = self.setup_driver()` runs before the
`try` block, so when session creation raises, the exception propagates to
the caller — not a `None` return — nothing is written, and no session is
ever closed.  The claim's "never propagates any exception to its caller"
fails at this concrete environment. -/
theorem c2_counterexample_setup_failure_propagates :
    (scrape_problem_call envSetupFail "4/A").outcome
      = .error .sessionCreateFail ∧
    (scrape_problem_call envSetupFail "4/A").sessionClosed = false ∧
    (scrape_problem_call envSetupFail "4/A").files = [] ∧
    (scrape_problem_call envSetupFail "4/A").logs
      = ["Accessing URL: " ++ problemUrl "4/A"] :=
  ⟨rfl, rfl, rfl, rfl⟩

/-- C2 amended: the session-creation step sits before the `try` block, so
an exception raised there propagates to the caller uncaught, with no
session closed; every exception arising once the session exists —
navigation failure, timeout, missing statement region, file-write failure,
or any other exception of the `try` body — is caught, reported to the
console with the identifier and, when obtainable, the last known address,
and converted to a `None` return. -/
theorem c2_amended_catch_covers_try_body_only :
    ∀ (env : Env) (problem_id : String),
      (env.setupDriverOk = false →
        (scrape_problem_call env problem_id).outcome = .error .sessionCreateFail ∧
        (scrape_problem_call env problem_id).sessionClosed = false) ∧
      (env.setupDriverOk = true →
        (scrape_problem_call env problem_id).sessionClosed = true ∧
        (∀ e, (attempt env problem_id).res = .error e →
          (scrape_problem_call env problem_id).outcome = .ok none ∧
          ("Error scraping problem " ++ problem_id ++ ": " ++ errMsg e)
            ∈ (scrape_problem_call env problem_id).logs ∧
          (∀ u, env.currentUrl = some u →
            ("Failed URL: " ++ u) ∈ (scrape_problem_call env problem_id).logs)) ∧
        (∀ d, (attempt env problem_id).res = .ok d →
          (scrape_problem_call env problem_id).outcome = .ok (some d))) := by
  intro env problem_id
  constructor
  · intro hs
    constructor <;> simp [scrape_problem_call, hs]
  · intro hs
    refine ⟨?_, ?_, ?_⟩
    · cases h : (attempt env problem_id).res <;>
        simp [scrape_problem_call, scrape_problem, hs, h]
    · intro e he
      refine ⟨by simp [scrape_problem_call, scrape_problem, hs, he],
        by simp [scrape_problem_call, scrape_problem, hs, he], ?_⟩
      intro u hu
      simp [scrape_problem_call, scrape_problem, hs, he, hu]
    · intro d hd
      simp [scrape_problem_call, scrape_problem, hs, hd]

/-- C2 amended witness: with the session created, the concrete timeout
attempt is caught and returned as `None` with the error and failed URL
logged; with session creation failing, the exception propagates. -/
theorem c2_amended_catch_covers_try_body_only_witness :
    (scrape_problem_call envTimeout "4/A").outcome = .ok none ∧
    ("Error scraping problem " ++ "4/A" ++ ": " ++ errMsg .timeout)
      ∈ (scrape_problem_call envTimeout "4/A").logs ∧
    ("Failed URL: " ++ problemUrl "4/A") ∈ (scrape_problem_call envTimeout "4/A").logs ∧
    (scrape_problem_call envSetupFail "4/A").outcome = .error .sessionCreateFail := by
  have h := (c2_amended_catch_covers_try_body_only envTimeout "4/A").2 rfl
  have he := h.2.1 .timeout rfl
  have hfail := (c2_amended_catch_covers_try_body_only envSetupFail "4/A").1 rfl
  exact ⟨he.1, he.2.1, he.2.2 (problemUrl "4/A") rfl, hfail.1⟩

/-- C4: if the statement marker does not appear within the 20-unit budget,
`scrape_problem` returns `none`, writes no file at all, and still closes
the browser session. -/
theorem c4_timeout_yields_no_files :
    ∀ (env : Env) (problem_id : String),
      env.navigateOk = true → env.currentUrl.isSome = true →
      (∀ t ∈ env.appearTime, waitTimeoutSeconds < t) →
      (scrape_problem env problem_id).result = none ∧
      (scrape_problem env problem_id).files = [] ∧
      (scrape_problem env problem_id).sessionClosed = true := by
  intro env problem_id h1 h2 h3
  obtain ⟨u, hu⟩ := Option.isSome_iff_exists.mp h2
  have hw : waitForStatement env = false := by
    unfold waitForStatement
    cases ht : env.appearTime with
    | none => rfl
    | some t =>
        have := h3 t (by simp [ht])
        simp [Nat.not_le.mpr this]
  refine ⟨?_, ?_, ?_⟩ <;> simp [scrape_problem, attempt, h1, hu, hw]

/-- C4 witness: with the marker appearing after 25 units the call returns
`none`, creates neither artifact, and the session is closed. -/
theorem c4_timeout_yields_no_files_witness :
    (scrape_problem envTimeout "4/A").result = none ∧
    (scrape_problem envTimeout "4/A").files = [] ∧
    (scrape_problem envTimeout "4/A").sessionClosed = true :=
  c4_timeout_yields_no_files envTimeout "4/A" rfl rfl
    (by intro t ht; simp [envTimeout] at ht; unfold waitTimeoutSeconds; omega)

/-- C3 counterexample: a parsed snapshot with no statement region but with
a tag box: tag collection would find `dp`, yet the call aborts with the
not-found error — `none`, no files, and no tag ever collected — so tag
collection does not run when the statement region is absent. -/
theorem c3_counterexample_no_region_aborts :
    collectTags docNoRegion = ["dp"] ∧
    (scrape_problem envNoRegion "1/A").result = none ∧
    (scrape_problem envNoRegion "1/A").files = [] ∧
    ("Error scraping problem " ++ "1/A" ++ ": " ++ "Could not find problem statement")
      ∈ (scrape_problem envNoRegion "1/A").logs := by
  refine ⟨by decide, by decide, by decide, by decide⟩

/-- C3 amended: tag collection scans the full parsed document — the tags of
a successful record are `collectTags` of the whole snapshot, not of the
region — but it only executes when the statement region exists: when the
region is absent from the snapshot, the attempt aborts before tag
collection and the call returns `none`. -/
theorem c3_amended_tags_scan_full_document :
    ∀ (env : Env) (problem_id : String),
      (∀ (u : String) (ps : Html),
        env.navigateOk = true → env.currentUrl = some u →
        waitForStatement env = true →
        findTagClass env.pageSource "div" "problem-statement" = some ps →
        env.txtWriteOk = true → env.jsonWriteOk = true →
        (scrape_problem env problem_id).result
          = some ⟨extractTitle ps, extractTimeLimit ps, extractMemoryLimit ps,
                  extract_problem_statement ps, collectSamples ps,
                  collectTags env.pageSource⟩) ∧
      (findTagClass env.pageSource "div" "problem-statement" = none →
        (scrape_problem env problem_id).result = none) := by
  intro env problem_id
  constructor
  · intro u ps h1 h2 h3 h4 h5 h6
    have h := (attempt_ok_shape env problem_id u ps h1 h2 h3 h4 h5 h6).1
    simp [scrape_problem, h]
  · intro hnone
    by_cases h1 : env.navigateOk = true
    · cases hu : env.currentUrl with
      | none => simp [scrape_problem, attempt, h1, hu]
      | some u =>
          by_cases h3 : waitForStatement env = true
          · simp [scrape_problem, attempt, h1, hu, h3, hnone]
          · simp only [Bool.not_eq_true] at h3
            simp [scrape_problem, attempt, h1, hu, h3]
    · simp only [Bool.not_eq_true] at h1
      simp [scrape_problem, attempt, h1]

/-- C3 amended witness: at the concrete environment whose only tag box sits
outside the statement region, the successful record's tags are `["dp"]` —
collected from the full document, beyond the region. -/
theorem c3_amended_tags_scan_full_document_witness :
    (scrape_problem envTagsOutside "1/A").result
      = some ⟨none, none, none, "Hello.", [], ["dp"]⟩ := by
  have h := (c3_amended_tags_scan_full_document envTagsOutside "1/A").1
    (problemUrl "1/A")
    (.elem "div" "problem-statement" [.elem "p" "" [.text "Hello."]])
    rfl rfl rfl rfl rfl rfl
  rw [h]
  decide

/-- C10: the two artifact writes are not atomic: when the `.json` write
raises after a successful `.txt` write, `scrape_problem` returns `none`
while the `.txt` artifact exists and no `.json` artifact was written. -/
theorem c10_txt_written_without_json :
    ∀ (env : Env) (problem_id u : String) (ps : Html),
      env.navigateOk = true → env.currentUrl = some u →
      waitForStatement env = true →
      findTagClass env.pageSource "div" "problem-statement" = some ps →
      env.txtWriteOk = true → env.jsonWriteOk = false →
      (scrape_problem env problem_id).result = none ∧
      (scrape_problem env problem_id).files
        = [⟨txtFilePath problem_id, extract_problem_statement ps⟩] ∧
      (∀ content : String,
        FileWrite.mk (jsonFilePath problem_id) content
          ∉ (scrape_problem env problem_id).files) := by
  intro env problem_id u ps h1 h2 h3 h4 h5 h6
  obtain ⟨hres, hfiles⟩ := attempt_jsonFail_shape env problem_id u ps h1 h2 h3 h4 h5 h6
  have hr : (scrape_problem env problem_id).result = none := by simp [scrape_problem, hres]
  have hf : (scrape_problem env problem_id).files
      = [⟨txtFilePath problem_id, extract_problem_statement ps⟩] := by
    simp [scrape_problem, hres, hfiles]
  refine ⟨hr, hf, ?_⟩
  intro content hmem
  rw [hf] at hmem
  rcases List.mem_singleton.mp hmem with heq
  exact txtFilePath_ne_jsonFilePath problem_id (by
    have := congrArg FileWrite.path heq
    simpa using this.symm)

/-- C10 witness: at the concrete environment whose `.json` write fails, the
call returns `none` while the `.txt` artifact (with the extracted
statement) is on disk. -/
theorem c10_txt_written_without_json_witness :
    (scrape_problem envJsonFail "4/A").result = none ∧
    (scrape_problem envJsonFail "4/A").files
      = [⟨txtFilePath "4/A", "Hello."⟩] := by
  have h := c10_txt_written_without_json envJsonFail "4/A" (problemUrl "4/A")
    (.elem "div" "problem-statement" [.elem "p" "" [.text "Hello."]])
    rfl rfl rfl rfl rfl rfl
  exact ⟨h.1, by rw [h.2.1]; rfl⟩

end Scraper
